import Mathlib

/-!
# Shallow embedding of `src/include/fuzzy_sync.h`

The fuzzy-sync library synchronises two threads (A and B) around a race
window.  This file embeds the pure computational content of the header:

* C `float` values are modelled as exact rationals (`ℚ`); literals such as
  `0.25`, `0.1`, `1.1` and `0.5` are taken at their written value.
* C `int`/`long` values are modelled as `Int`.  Signed overflow is undefined
  behaviour in C, so the unbounded model agrees with every defined execution.
  The constants `INT_MAX`, `FLT_MIN`, `FLT_MAX` appear where the source
  mentions them.
* Functions that mutate `struct fzsync_pair *` become functions
  `Pair → ... → Pair` (returning any C return value alongside).
* `assert` failure is modelled by `Option` (`none` = aborted).
* Calls whose results come from the outside world (`clock_gettime`,
  `drand48`, `pthread_join`) become explicit parameters (`now : Timespec`,
  `r : ℚ`, `joinResult : Int`).
* The `fzsync_printf` diagnostics that mark phase transitions are modelled
  as an `FzEvent` value returned by `fzsync_pair_update`.
* The spin-wait loops of `fzsync_pair_wait` block on the partner thread and
  have no sequential meaning; where a caller's state change matters
  (`fzsync_run_a` incrementing the partner counter) it is modelled
  explicitly and the blocking part is documented as omitted.
-/

namespace FuzzySync

/-- C `struct timespec`: seconds and nanoseconds. -/
structure Timespec where
  tv_sec : Int
  tv_nsec : Int
deriving DecidableEq

/-- `struct fzsync_stat`: average, average deviation and deviation ratio. -/
structure Stat where
  avg : ℚ
  avg_dev : ℚ
  dev_ratio : ℚ
deriving DecidableEq

/-- `struct fzsync_pair`: the complete synchronisation state (field for
field as in the source; `thread_b` is the `pthread_t` handle, 0 = absent). -/
structure Pair where
  avg_alpha : ℚ
  a_start : Timespec
  b_start : Timespec
  a_end : Timespec
  b_end : Timespec
  diff_ss : Stat
  diff_sa : Stat
  diff_sb : Stat
  diff_ab : Stat
  spins : Int
  spins_avg : Stat
  delay : Int
  delay_bias : Int
  sampling : Int
  min_samples : Int
  max_dev_ratio : ℚ
  a_cntr : Int
  b_cntr : Int
  exit : Int
  exec_time : ℚ
  exec_time_start : Timespec
  exec_loops : Int
  exec_loop : Int
  thread_b : Int
deriving DecidableEq

/-- `INT_MAX` for 32-bit `int`. -/
def INT_MAX : Int := 2147483647

/-- `FLT_MIN`, the smallest positive normal IEEE-754 single, `2^(-126)`. -/
def FLT_MIN : ℚ := 1 / 2 ^ 126

/-- `FLT_MAX`, the largest finite IEEE-754 single, `2^128 - 2^104`. -/
def FLT_MAX : ℚ := 2 ^ 128 - 2 ^ 104

/-- C conversion of a real value to an integer type: truncation toward
zero.  `Rat` is stored reduced with positive denominator, and `Int.tdiv`
is T-division, so this is exact. -/
def ctrunc (q : ℚ) : Int := q.num.tdiv (q.den : Int)

/-- `fzsync_init_stat`: zero `avg` and `avg_dev` (the source leaves
`dev_ratio` untouched). -/
def fzsync_init_stat (s : Stat) : Stat :=
  { s with avg := 0, avg_dev := 0 }

/-- `fzsync_diff_ns`: difference of two timespecs in nanoseconds. -/
def fzsync_diff_ns (t1 t2 : Timespec) : Int :=
  (t1.tv_sec - t2.tv_sec) * 1000000000 + (t1.tv_nsec - t2.tv_nsec)

/-- `fzsync_exp_moving_avg`: `alpha * sample + (1 - alpha) * prev_avg`. -/
def fzsync_exp_moving_avg (alpha sample prev_avg : ℚ) : ℚ :=
  alpha * sample + (1 - alpha) * prev_avg

/-- `fzsync_upd_stat`: fold a sample into a statistic.  Note the source
computes `avg_dev` from the already-updated `avg`, and the ternary
`s->avg ? s->avg_dev / s->avg : 0` tests `avg` against zero. -/
def fzsync_upd_stat (s : Stat) (alpha sample : ℚ) : Stat :=
  let avg := fzsync_exp_moving_avg alpha sample s.avg
  let avg_dev := fzsync_exp_moving_avg alpha |avg - sample| s.avg_dev
  { avg := avg
    avg_dev := avg_dev
    dev_ratio := |if avg = 0 then 0 else avg_dev / avg| }

/-- `fzsync_upd_diff_stat`: fold a timespec difference into a statistic. -/
def fzsync_upd_diff_stat (s : Stat) (alpha : ℚ) (t1 t2 : Timespec) : Stat :=
  fzsync_upd_stat s alpha ((fzsync_diff_ns t1 t2 : Int) : ℚ)

/-- Default-or-keep of the `CHK` macro for a float parameter:
`pair->param = (pair->param ? pair->param : def)`. -/
def dflQ (v dflt : ℚ) : ℚ := if v ≠ 0 then v else dflt

/-- Default-or-keep of the `CHK` macro for an int parameter. -/
def dflI (v dflt : Int) : Int := if v ≠ 0 then v else dflt

/-- The `CHK(param, low, hi, def)` macro for a float field: substitute the
default for zero, then `assert(param >= low); assert(param <= hi)`. -/
def chkQ (v low hi dflt : ℚ) : Option ℚ :=
  let v := dflQ v dflt
  if low ≤ v ∧ v ≤ hi then some v else none

/-- The `CHK(param, low, hi, def)` macro for an int field. -/
def chkI (v low hi dflt : Int) : Option Int :=
  let v := dflI v dflt
  if low ≤ v ∧ v ≤ hi then some v else none

/-- `fzsync_pair_init`: validate or default the five configuration
fields; `none` models an `assert` firing. -/
def fzsync_pair_init (pair : Pair) : Option Pair :=
  (chkQ pair.avg_alpha FLT_MIN 1 (1/4)).bind fun a =>
  (chkI pair.min_samples 20 INT_MAX 1024).bind fun m =>
  (chkQ pair.max_dev_ratio FLT_MIN 1 (1/10)).bind fun d =>
  (chkQ pair.exec_time 1 FLT_MAX 150).bind fun t =>
  (chkI pair.exec_loops 20 INT_MAX 3000000).bind fun l =>
  some { pair with avg_alpha := a, min_samples := m, max_dev_ratio := d,
                   exec_time := t, exec_loops := l }

/-- `fzsync_pair_cleanup`: revoke and join thread B when it exists.
`joinResult` is the external result of `pthread_join`; `usleep` and
`pthread_cancel` have no effect on the pair.  Returns `(rval, pair)`. -/
def fzsync_pair_cleanup (pair : Pair) (joinResult : Int) : Int × Pair :=
  if pair.thread_b ≠ 0 then
    let pair := if pair.exit = 0 then { pair with exit := 1 } else pair
    (joinResult, { pair with thread_b := 0 })
  else
    (0, pair)

/-- `fzsync_pair_reset`: cleanup, zero the transient state, optionally
spawn thread B (`run_b = some handle` models a successful
`pthread_create` storing a fresh nonzero handle; a failing create returns
its error before the start time is recorded and is not modelled), then
record the budget start time `now`. -/
def fzsync_pair_reset (pair : Pair) (run_b : Option Int) (now : Timespec) :
    Pair :=
  let pair := (fzsync_pair_cleanup pair 0).2
  let pair := { pair with
    diff_ss := fzsync_init_stat pair.diff_ss
    diff_sa := fzsync_init_stat pair.diff_sa
    diff_sb := fzsync_init_stat pair.diff_sb
    diff_ab := fzsync_init_stat pair.diff_ab
    spins_avg := fzsync_init_stat pair.spins_avg
    delay := 0
    sampling := pair.min_samples
    exec_loop := 0
    a_cntr := 0
    b_cntr := 0
    exit := 0 }
  let pair := match run_b with
    | some handle => { pair with thread_b := handle }
    | none => pair
  { pair with exec_time_start := now }

/-- `fzsync_timeout_remaining`: seconds of budget left, at whole-second
granularity (`long res = pair->exec_time` truncates the float).  The
source asserts `now.tv_sec >= exec_time_start.tv_sec`; theorems carry that
as a hypothesis. -/
def fzsync_timeout_remaining (pair : Pair) (now : Timespec) : Int :=
  let res := ctrunc pair.exec_time - (now.tv_sec - pair.exec_time_start.tv_sec)
  if res > 0 then res
  else if res < 0 then 0
  else if now.tv_nsec - pair.exec_time_start.tv_nsec > 0 then 1
  else 0

/-- The `over_max_dev` condition of `fzsync_pair_update`: some deviation
ratio exceeds the configured maximum. -/
def overMaxDev (pair : Pair) : Prop :=
  pair.diff_ss.dev_ratio > pair.max_dev_ratio ∨
  pair.diff_sa.dev_ratio > pair.max_dev_ratio ∨
  pair.diff_sb.dev_ratio > pair.max_dev_ratio ∨
  pair.diff_ab.dev_ratio > pair.max_dev_ratio ∨
  pair.spins_avg.dev_ratio > pair.max_dev_ratio

instance (pair : Pair) : Decidable (overMaxDev pair) := by
  unfold overMaxDev
  exact inferInstance

/-- The `per_spin_time` local of `fzsync_pair_update`:
`fabsf(diff_ab.avg) / MAX(spins_avg.avg, 1.0f)`. -/
def per_spin_time (pair : Pair) : ℚ :=
  |pair.diff_ab.avg| / max pair.spins_avg.avg 1

/-- The `time_delay` local of `fzsync_pair_update`, with `r` the
`drand48()` draw: `r * (diff_sa.avg + diff_sb.avg) - diff_sb.avg`. -/
def time_delay (pair : Pair) (r : ℚ) : ℚ :=
  r * (pair.diff_sa.avg + pair.diff_sb.avg) - pair.diff_sb.avg

/-- The `fzsync_printf` diagnostics of `fzsync_pair_update` that mark a
phase change: end of the mandatory sampling period, convergence
("introducing randomness") or the degenerate "Can't calculate random
delay" state. -/
inductive FzEvent where
  | samplingEnded
  | converged
  | delayUnavailable
deriving DecidableEq

/-- `fzsync_pair_update`: fold the previous iteration's samples into the
statistics while sampling (or while some deviation ratio is too large),
otherwise compute the randomised delay.  `r` is the `drand48()` draw.
Returns the new pair together with the phase-transition diagnostic (if
any) printed by this call.

The source writes `pair->delay = pair->delay_bias` once before
branching; since the branches never read `delay` (branch two adds to the
just-written bias), that write is distributed into each result here.
Likewise the trailing `pair->spins = 0` appears in every result, and the
branch conditions read only fields the earlier statements do not touch,
so they are taken on the incoming `pair`. -/
def fzsync_pair_update (pair : Pair) (r : ℚ) : Pair × Option FzEvent :=
  if pair.sampling > 0 ∨ overMaxDev pair then
    let p1 := { pair with
      delay := pair.delay_bias
      diff_ss := fzsync_upd_diff_stat pair.diff_ss pair.avg_alpha pair.a_start pair.b_start
      diff_sa := fzsync_upd_diff_stat pair.diff_sa pair.avg_alpha pair.a_end pair.a_start
      diff_sb := fzsync_upd_diff_stat pair.diff_sb pair.avg_alpha pair.b_end pair.b_start
      diff_ab := fzsync_upd_diff_stat pair.diff_ab pair.avg_alpha pair.a_end pair.b_end
      spins_avg := fzsync_upd_stat pair.spins_avg pair.avg_alpha (pair.spins : ℚ)
      spins := 0 }
    if pair.sampling > 0 then
      ({ p1 with sampling := pair.sampling - 1 },
       if pair.sampling - 1 = 0 then some .samplingEnded else none)
    else
      (p1, none)
  else if 1 ≤ |pair.diff_ab.avg| then
    let d := pair.delay_bias + ctrunc (11/10 * time_delay pair r / per_spin_time pair)
    if pair.sampling = 0 then
      ({ pair with delay := d, spins := 0, sampling := -1 }, some .converged)
    else
      ({ pair with delay := d, spins := 0 }, none)
  else if pair.sampling = 0 then
    ({ pair with delay := pair.delay_bias, spins := 0, sampling := -1 },
     some .delayUnavailable)
  else
    ({ pair with delay := pair.delay_bias, spins := 0 }, none)

/-- The pair component of `fzsync_pair_update`. -/
def updApply (pair : Pair) (r : ℚ) : Pair := (fzsync_pair_update pair r).1

/-- `fzsync_pair_add_bias`: add `change` to the delay bias, but only
while still in the mandatory sampling phase. -/
def fzsync_pair_add_bias (pair : Pair) (change : Int) : Pair :=
  if pair.sampling > 0 then
    { pair with delay_bias := pair.delay_bias + change }
  else
    pair

/-- `fzsync_run_a`: the per-iteration loop decision of thread A.  `now`
is the `clock_gettime` reading inside `fzsync_timeout_remaining`.  The
`fzsync_wait_a` barrier call is modelled by its only effect on the pair
visible from thread A's sequential state: the atomic increment of the
partner counter `b_cntr` (its spin-wait blocks on thread B and its
`INT_MAX` wraparound path involves the concurrent partner; neither is
part of this sequential model).  Returns `(continue?, pair)`. -/
def fzsync_run_a (pair : Pair) (now : Timespec) : Bool × Pair :=
  let rem : ℚ := ((fzsync_timeout_remaining pair now : Int) : ℚ)
  let p1 := if pair.exec_time * (1/2) > rem ∧ pair.sampling > 0 then
              { pair with sampling := 0 }
            else pair
  let ex1 : Int := if rem = 0 then 1 else 0
  let p2 := { p1 with exec_loop := p1.exec_loop + 1 }
  let ex2 : Int := if p2.exec_loop > p2.exec_loops then 1 else ex1
  let p3 := { p2 with exit := ex2, b_cntr := p2.b_cntr + 1 }
  if ex2 ≠ 0 then
    (false, (fzsync_pair_cleanup p3 0).2)
  else
    (true, p3)

/-- Results of calling `fzsync_run_a` once per iteration, with the given
clock reading for each call. -/
def runA_results : Pair → List Timespec → List Bool
  | _, [] => []
  | p, t :: ts =>
    let s := fzsync_run_a p t
    s.1 :: runA_results s.2 ts

/-- The five statistics of a pair, bundled (used to state that the
statistics freeze after convergence). -/
def statsOf (pair : Pair) : Stat × Stat × Stat × Stat × Stat :=
  (pair.diff_ss, pair.diff_sa, pair.diff_sb, pair.diff_ab, pair.spins_avg)

/-! ## Concrete states used by witnesses and counterexamples -/

/-- An all-zero statistic. -/
def zeroStat : Stat := ⟨0, 0, 0⟩

/-- A pair whose configuration carries exactly the library defaults and
whose transient state is all zero. -/
def basePair : Pair :=
  { avg_alpha := 1/4, a_start := ⟨0,0⟩, b_start := ⟨0,0⟩, a_end := ⟨0,0⟩,
    b_end := ⟨0,0⟩, diff_ss := zeroStat, diff_sa := zeroStat,
    diff_sb := zeroStat, diff_ab := zeroStat, spins := 0,
    spins_avg := zeroStat, delay := 0, delay_bias := 0, sampling := 0,
    min_samples := 1024, max_dev_ratio := 1/10, a_cntr := 0, b_cntr := 0,
    exit := 0, exec_time := 150, exec_time_start := ⟨0,0⟩,
    exec_loops := 3000000, exec_loop := 0, thread_b := 0 }

/-- A pair whose 150 s budget started half a second into second 0. -/
def pC2 : Pair := { basePair with exec_time_start := ⟨0, 500000000⟩ }

/-- A pair past its mandatory samples with all-zero statistics (all five
deviation ratios are 0, and the end-skew average is 0). -/
def pC4 : Pair := { basePair with sampling := 0 }

/-- A pair at the end of sampling with end-skew average 1000 ns,
A-duration 500 ns, B-duration 300 ns and spin average 100. -/
def pConv : Pair := { basePair with
  diff_ab := ⟨1000, 0, 0⟩, diff_sa := ⟨500, 0, 0⟩, diff_sb := ⟨300, 0, 0⟩,
  spins_avg := ⟨100, 0, 0⟩, sampling := 0 }

/-- A pair in the mandatory sampling phase. -/
def pSamp : Pair := { basePair with sampling := 512 }

/-- A freshly reset pair with an iteration budget of 20. -/
def pRun : Pair := { basePair with exec_loops := 20, sampling := 1024 }

/-- A configuration whose decay rate is the positive denormal float
`2^(-127)`: inside the documented range `(0, 1]`, below `FLT_MIN`. -/
def pC9 : Pair := { basePair with avg_alpha := 1 / 2 ^ 127 }

/-- A configuration left entirely zero (every field defaulted). -/
def pZero : Pair :=
  { basePair with
    avg_alpha := 0, min_samples := 0, max_dev_ratio := 0,
    exec_time := 0, exec_loops := 0 }

/-- A pair whose start-skew statistic carries a stale deviation ratio. -/
def pC10 : Pair := { basePair with diff_ss := ⟨0, 0, 1⟩ }

/-- A pair in the terminal phase (`sampling = -1`: converged or delay
unavailable). -/
def pDone : Pair := { basePair with sampling := -1 }

/-- Validity of a configuration, as amended from the asserted ranges of
`fzsync_pair_init`: after zero fields are defaulted, the decay rate and
the stability ratio must lie in `[FLT_MIN, 1]`, the sample and iteration
counts in `[20, INT_MAX]` and the time budget in `[1, FLT_MAX]`. -/
def configValid (p : Pair) : Prop :=
  (FLT_MIN ≤ dflQ p.avg_alpha (1/4) ∧ dflQ p.avg_alpha (1/4) ≤ 1) ∧
  (20 ≤ dflI p.min_samples 1024 ∧ dflI p.min_samples 1024 ≤ INT_MAX) ∧
  (FLT_MIN ≤ dflQ p.max_dev_ratio (1/10) ∧ dflQ p.max_dev_ratio (1/10) ≤ 1) ∧
  ((1:ℚ) ≤ dflQ p.exec_time 150 ∧ dflQ p.exec_time 150 ≤ FLT_MAX) ∧
  (20 ≤ dflI p.exec_loops 3000000 ∧ dflI p.exec_loops 3000000 ≤ INT_MAX)

/-- The configuration after `fzsync_pair_init` replaces zero fields with
the documented defaults. -/
def applyDefaults (p : Pair) : Pair :=
  { p with avg_alpha := dflQ p.avg_alpha (1/4)
           min_samples := dflI p.min_samples 1024
           max_dev_ratio := dflQ p.max_dev_ratio (1/10)
           exec_time := dflQ p.exec_time 150
           exec_loops := dflI p.exec_loops 3000000 }

/-! ## Helper lemmas about `fzsync_pair_update` -/

/-- While the mandatory sampling phase is active, the update leaves the
delay at exactly the bias. -/
theorem update_delay_of_sampling (p : Pair) (r : ℚ) (h : 0 < p.sampling) :
    (fzsync_pair_update p r).1.delay = p.delay_bias := by
  simp only [fzsync_pair_update]
  rw [if_pos (Or.inl h), if_pos h]

/-- Once sampling is over and every ratio is within tolerance, an update
leaves the five statistics and the configuration untouched, and sends
`sampling` from 0 to -1 (otherwise keeping it). -/
theorem update_frozen (p : Pair) (r : ℚ)
    (h : ¬ (0 < p.sampling ∨ overMaxDev p)) :
    statsOf (fzsync_pair_update p r).1 = statsOf p ∧
    (fzsync_pair_update p r).1.max_dev_ratio = p.max_dev_ratio ∧
    (fzsync_pair_update p r).1.sampling =
      (if p.sampling = 0 then -1 else p.sampling) := by
  simp only [fzsync_pair_update]
  rw [if_neg h]
  split_ifs <;> simp_all [statsOf]

/-- The "introducing randomness" transition fires exactly when the
mandatory counter sits at zero, no ratio exceeds the maximum, and the
end-skew average is at least one nanosecond in magnitude. -/
theorem update_converged_iff (p : Pair) (r : ℚ) :
    (fzsync_pair_update p r).2 = some FzEvent.converged ↔
      (p.sampling = 0 ∧ ¬ overMaxDev p ∧ 1 ≤ |p.diff_ab.avg|) := by
  simp only [fzsync_pair_update]
  split_ifs with h1 h2 h3 h4 <;> simp_all <;> omega

/-- `overMaxDev` depends only on the statistics and the configured
maximum ratio. -/
theorem overMaxDev_congr {p q : Pair} (hst : statsOf q = statsOf p)
    (hmd : q.max_dev_ratio = p.max_dev_ratio) :
    overMaxDev q ↔ overMaxDev p := by
  simp only [statsOf, Prod.mk.injEq] at hst
  obtain ⟨e1, e2, e3, e4, e5⟩ := hst
  unfold overMaxDev
  rw [e1, e2, e3, e4, e5, hmd]

/-- After the terminal transition (`sampling = -1` with every ratio in
tolerance) any run of updates leaves the statistics, the maximum ratio
and the sampling state untouched. -/
theorem foldl_frozen (rs : List ℚ) (p : Pair) (hs : p.sampling = -1)
    (hover : ¬ overMaxDev p) :
    statsOf (List.foldl updApply p rs) = statsOf p ∧
    (List.foldl updApply p rs).max_dev_ratio = p.max_dev_ratio ∧
    (List.foldl updApply p rs).sampling = -1 := by
  induction rs generalizing p with
  | nil => exact ⟨rfl, rfl, hs⟩
  | cons r rs ih =>
    have hno : ¬ (0 < p.sampling ∨ overMaxDev p) := by
      rintro (h | h)
      · omega
      · exact hover h
    obtain ⟨hst, hmd, hsam⟩ := update_frozen p r hno
    have hsam' : (fzsync_pair_update p r).1.sampling = -1 := by
      rw [hsam, if_neg (by omega)]
      exact hs
    have hover' : ¬ overMaxDev (fzsync_pair_update p r).1 := by
      rw [overMaxDev_congr hst hmd]
      exact hover
    obtain ⟨ist, imd, isam⟩ := ih (fzsync_pair_update p r).1 hsam' hover'
    refine ⟨?_, ?_, ?_⟩
    · exact (by simpa [updApply, List.foldl_cons] using ist.trans hst)
    · exact (by simpa [updApply, List.foldl_cons] using imd.trans hmd)
    · simpa [updApply, List.foldl_cons] using isam

/-- Feeding a statistic its own average is a fixed point for `avg` and
shrinks `avg_dev` by the factor `1 - alpha`. -/
theorem upd_stat_fix_step (t : Stat) (a : ℚ) :
    (fzsync_upd_stat t a t.avg).avg = t.avg ∧
    (fzsync_upd_stat t a t.avg).avg_dev = (1 - a) * t.avg_dev := by
  constructor
  · show fzsync_exp_moving_avg a t.avg t.avg = t.avg
    unfold fzsync_exp_moving_avg
    ring
  · show fzsync_exp_moving_avg a
      |fzsync_exp_moving_avg a t.avg t.avg - t.avg| t.avg_dev = (1 - a) * t.avg_dev
    unfold fzsync_exp_moving_avg
    have h : a * t.avg + (1 - a) * t.avg - t.avg = 0 := by ring
    rw [h, abs_zero]
    ring

/-! ## Helper lemmas about initialisation, cleanup and the loop -/

/-- `CHK` on a float field succeeds on an in-range (defaulted) value. -/
theorem chkQ_pos {v low hi dflt : ℚ}
    (h : low ≤ dflQ v dflt ∧ dflQ v dflt ≤ hi) :
    chkQ v low hi dflt = some (dflQ v dflt) := by
  unfold chkQ
  rw [if_pos h]

/-- `CHK` on a float field aborts on an out-of-range (defaulted) value. -/
theorem chkQ_neg {v low hi dflt : ℚ}
    (h : ¬ (low ≤ dflQ v dflt ∧ dflQ v dflt ≤ hi)) :
    chkQ v low hi dflt = none := by
  unfold chkQ
  rw [if_neg h]

/-- `CHK` on an int field succeeds on an in-range (defaulted) value. -/
theorem chkI_pos {v low hi dflt : Int}
    (h : low ≤ dflI v dflt ∧ dflI v dflt ≤ hi) :
    chkI v low hi dflt = some (dflI v dflt) := by
  unfold chkI
  rw [if_pos h]

/-- `CHK` on an int field aborts on an out-of-range (defaulted) value. -/
theorem chkI_neg {v low hi dflt : Int}
    (h : ¬ (low ≤ dflI v dflt ∧ dflI v dflt ≤ hi)) :
    chkI v low hi dflt = none := by
  unfold chkI
  rw [if_neg h]

/-- Closed form of the state effect of `fzsync_pair_cleanup`. -/
theorem cleanup_fields (p : Pair) (j : Int) :
    (fzsync_pair_cleanup p j).2 =
      { p with exit := if p.thread_b ≠ 0 ∧ p.exit = 0 then 1 else p.exit
               thread_b := 0 } := by
  cases p
  unfold fzsync_pair_cleanup
  split_ifs <;> simp_all

/-- `fzsync_timeout_remaining` reads only the time budget and its start
timestamp. -/
theorem timeout_congr {p q : Pair} (h1 : q.exec_time = p.exec_time)
    (h2 : q.exec_time_start = p.exec_time_start) (t : Timespec) :
    fzsync_timeout_remaining q t = fzsync_timeout_remaining p t := by
  unfold fzsync_timeout_remaining
  rw [h1, h2]

/-- One step of `fzsync_run_a` under a non-exhausted clock: the result
is governed solely by the iteration budget, the iteration counter
advances by one, and the budget fields are untouched. -/
theorem run_a_step (p : Pair) (t : Timespec)
    (hrem : fzsync_timeout_remaining p t ≠ 0) :
    (fzsync_run_a p t).1 =
      (if p.exec_loop + 1 > p.exec_loops then false else true) ∧
    (fzsync_run_a p t).2.exec_loop = p.exec_loop + 1 ∧
    (fzsync_run_a p t).2.exec_loops = p.exec_loops ∧
    (fzsync_run_a p t).2.exec_time = p.exec_time ∧
    (fzsync_run_a p t).2.exec_time_start = p.exec_time_start := by
  have hq : ((fzsync_timeout_remaining p t : Int) : ℚ) ≠ 0 := by
    exact_mod_cast hrem
  simp only [fzsync_run_a]
  rw [if_neg hq]
  split_ifs <;> simp_all [fzsync_pair_cleanup]

/-! ## Claim theorems -/

/-- C2 (corrected), counterexample: with a 150 s budget started half a
second into second 0, at `now = ⟨150, 0.4 s⟩` a tenth of a second of the
budget genuinely remains, yet `fzsync_timeout_remaining` reports 0 — it
does not return at least 1 whenever wall-clock budget remains. -/
theorem C2_timeout_remaining_subsecond_cex :
    fzsync_timeout_remaining pC2 ⟨150, 400000000⟩ = 0 ∧
    ((fzsync_diff_ns ⟨150, 400000000⟩ pC2.exec_time_start : Int) : ℚ) <
      pC2.exec_time * 1000000000 := by
  constructor
  · norm_num [pC2, basePair, fzsync_timeout_remaining, ctrunc]
  · norm_num [pC2, basePair, fzsync_diff_ns]

/-- C2 (amended): `fzsync_timeout_remaining` works at whole-second
granularity on the truncated budget.  With `d` the elapsed whole seconds
(`now.tv_sec - exec_time_start.tv_sec`, nonnegative by the source's
assert) and `S` the truncated budget `ctrunc exec_time`: if `d < S` the
result is `S - d ≥ 1`; if `d > S` the result is 0; and in the boundary
second `d = S` the result rounds up to 1 exactly when `now.tv_nsec`
exceeds the start's `tv_nsec`, and is 0 otherwise. -/
theorem C2_timeout_remaining_seconds_granularity (p : Pair) (now : Timespec)
    (hs : p.exec_time_start.tv_sec ≤ now.tv_sec) :
    (now.tv_sec - p.exec_time_start.tv_sec < ctrunc p.exec_time →
      fzsync_timeout_remaining p now =
        ctrunc p.exec_time - (now.tv_sec - p.exec_time_start.tv_sec) ∧
      1 ≤ fzsync_timeout_remaining p now) ∧
    (ctrunc p.exec_time < now.tv_sec - p.exec_time_start.tv_sec →
      fzsync_timeout_remaining p now = 0) ∧
    (now.tv_sec - p.exec_time_start.tv_sec = ctrunc p.exec_time →
      (fzsync_timeout_remaining p now = 1 ↔
        p.exec_time_start.tv_nsec < now.tv_nsec) ∧
      (fzsync_timeout_remaining p now = 0 ↔
        now.tv_nsec ≤ p.exec_time_start.tv_nsec)) := by
  simp only [fzsync_timeout_remaining]
  split_ifs <;>
    refine ⟨fun h => ⟨?_, ?_⟩, fun h => ?_, fun h => ⟨?_, ?_⟩⟩ <;>
    omega

/-- C2 witness: one second into a 150 s budget, 149 seconds are
reported. -/
theorem C2_timeout_remaining_seconds_granularity_witness :
    fzsync_timeout_remaining pC2 ⟨1, 0⟩ =
      ctrunc pC2.exec_time - ((1 : Int) - pC2.exec_time_start.tv_sec) ∧
    1 ≤ fzsync_timeout_remaining pC2 ⟨1, 0⟩ :=
  (C2_timeout_remaining_seconds_granularity pC2 ⟨1, 0⟩ (by decide)).1
    (by norm_num [pC2, basePair, ctrunc])

/-- C3 (confirmed): while the pair is still in the Sampling phase
(`sampling > 0`), `fzsync_pair_add_bias` adds the change to `delay_bias`
and the next `fzsync_pair_update` computes exactly that biased delay;
in the Converged or DelayUnavailable phase (`sampling < 0`) any sequence
of `fzsync_pair_add_bias` calls leaves the pair — in particular
`delay_bias` — unchanged, so every subsequently computed delay value is
unchanged as well. -/
theorem C3_add_bias_only_while_sampling (p : Pair) (c : Int) (r : ℚ)
    (cs : List Int) :
    (0 < p.sampling →
      (fzsync_pair_add_bias p c).delay_bias = p.delay_bias + c ∧
      (fzsync_pair_update (fzsync_pair_add_bias p c) r).1.delay =
        p.delay_bias + c) ∧
    (p.sampling < 0 →
      List.foldl fzsync_pair_add_bias p cs = p ∧
      (List.foldl fzsync_pair_add_bias p cs).delay_bias = p.delay_bias ∧
      fzsync_pair_update (List.foldl fzsync_pair_add_bias p cs) r =
        fzsync_pair_update p r) := by
  constructor
  · intro h
    have hb : fzsync_pair_add_bias p c =
        { p with delay_bias := p.delay_bias + c } := by
      simp [fzsync_pair_add_bias, h]
    rw [hb]
    refine ⟨rfl, ?_⟩
    exact update_delay_of_sampling { p with delay_bias := p.delay_bias + c } r h
  · intro h
    have hfold : List.foldl fzsync_pair_add_bias p cs = p := by
      induction cs with
      | nil => rfl
      | cons c2 cs ih =>
        rw [List.foldl_cons,
            show fzsync_pair_add_bias p c2 = p by
              simp [fzsync_pair_add_bias]
              omega]
        exact ih
    rw [hfold]
    exact ⟨rfl, rfl, rfl⟩

/-- C3 witness: a bias change of 5 lands in `delay_bias` while sampling,
and a sequence of changes is ignored in the terminal phase. -/
theorem C3_add_bias_only_while_sampling_witness :
    (fzsync_pair_add_bias pSamp 5).delay_bias = pSamp.delay_bias + 5 ∧
    List.foldl fzsync_pair_add_bias pDone [3, -7] = pDone :=
  ⟨((C3_add_bias_only_while_sampling pSamp 5 0 []).1 (by decide)).1,
   ((C3_add_bias_only_while_sampling pDone 3 0 [3, -7]).2 (by decide)).1⟩

/-- C4 (corrected), counterexample: a pair past its mandatory samples
whose five deviation ratios are all within the maximum — but whose
end-skew average is below 1 ns — transitions to DelayUnavailable, not to
Converged, on the very update call singled out by the claim. -/
theorem C4_converged_transition_cex :
    pC4.sampling = 0 ∧ ¬ overMaxDev pC4 ∧
    (fzsync_pair_update pC4 0).2 = some FzEvent.delayUnavailable ∧
    (fzsync_pair_update pC4 0).2 ≠ some FzEvent.converged := by
  have h3 : (fzsync_pair_update pC4 0).2 = some FzEvent.delayUnavailable := by
    norm_num [pC4, basePair, zeroStat, overMaxDev, fzsync_pair_update]
  refine ⟨rfl, ?_, h3, ?_⟩
  · norm_num [pC4, basePair, zeroStat, overMaxDev]
  · rw [h3]
    decide

/-- C4 (amended): the transition into Converged happens at most once per
run, on the first `fzsync_pair_update` call at which the mandatory
counter sits at zero, all five deviation ratios are within the maximum,
and additionally the end-skew average is at least 1 ns in magnitude
(otherwise that call transitions to DelayUnavailable instead); at any
such call the statistics are not updated and `sampling` becomes -1, and
from the terminal state onward no statistic is ever updated and the
Converged transition never fires again. -/
theorem C4_converged_transition_once (p : Pair) (r : ℚ) (rs : List ℚ) :
    ((fzsync_pair_update p r).2 = some FzEvent.converged ↔
      p.sampling = 0 ∧ ¬ overMaxDev p ∧ 1 ≤ |p.diff_ab.avg|) ∧
    (p.sampling = 0 → ¬ overMaxDev p →
      statsOf (fzsync_pair_update p r).1 = statsOf p ∧
      (fzsync_pair_update p r).1.sampling = -1) ∧
    (p.sampling = -1 → ¬ overMaxDev p →
      statsOf (List.foldl updApply p rs) = statsOf p ∧
      ∀ r2 : ℚ, (fzsync_pair_update (List.foldl updApply p rs) r2).2 ≠
        some FzEvent.converged) := by
  refine ⟨update_converged_iff p r, ?_, ?_⟩
  · intro h0 hover
    have hno : ¬ (0 < p.sampling ∨ overMaxDev p) := by
      rintro (h | h)
      · omega
      · exact hover h
    obtain ⟨hst, _, hsam⟩ := update_frozen p r hno
    exact ⟨hst, by rw [hsam, if_pos h0]⟩
  · intro hm hover
    obtain ⟨hst, hmd, hsam⟩ := foldl_frozen rs p hm hover
    refine ⟨hst, fun r2 hc => ?_⟩
    rw [update_converged_iff] at hc
    omega

/-- C4 witness: a converged-shaped pair (zero ratios, end-skew average
1000 ns, mandatory counter at zero) fires the Converged transition. -/
theorem C4_converged_transition_once_witness :
    (fzsync_pair_update pConv 0).2 = some FzEvent.converged :=
  (C4_converged_transition_once pConv 0 []).1.mpr
    (by refine ⟨rfl, ?_, ?_⟩ <;>
      norm_num [pConv, basePair, zeroStat, overMaxDev])

/-- C5 (confirmed): with end-skew average 1000 ns, A-duration 500 ns,
B-duration 300 ns and spin average 100, the per-spin time computed by
`fzsync_pair_update` is 10 ns, and for every uniform draw in `[0, 1)`
the time-domain delay divided by the per-spin time — before the 1.1
margin and the delay bias — lies within spin units `[-30, +50]`. -/
theorem C5_delay_range :
    per_spin_time pConv = 10 ∧
    ∀ r : ℚ, 0 ≤ r → r < 1 →
      -30 ≤ time_delay pConv r / per_spin_time pConv ∧
      time_delay pConv r / per_spin_time pConv ≤ 50 := by
  have hmax : max (100:ℚ) 1 = 100 := max_eq_left (by norm_num)
  have hp : per_spin_time pConv = 10 := by
    show |(1000:ℚ)| / max (100:ℚ) 1 = 10
    rw [hmax]
    norm_num
  have ht : ∀ r : ℚ, time_delay pConv r = r * 800 - 300 := by
    intro r
    show r * ((500:ℚ) + 300) - 300 = r * 800 - 300
    norm_num
  refine ⟨hp, fun r h0 h1 => ?_⟩
  rw [hp, ht r]
  constructor
  · rw [le_div_iff₀ (by norm_num : (0:ℚ) < 10)]
    linarith
  · rw [div_le_iff₀ (by norm_num : (0:ℚ) < 10)]
    linarith

/-- C5 witness: the draw 1/2 gives a delay-to-spin ratio inside
`[-30, 50]`. -/
theorem C5_delay_range_witness :
    -30 ≤ time_delay pConv (1/2) / per_spin_time pConv ∧
    time_delay pConv (1/2) / per_spin_time pConv ≤ 50 :=
  C5_delay_range.2 (1/2) (by norm_num) (by norm_num)

/-- C6 (confirmed): for any statistic and any `alpha` in `(0, 1]`,
feeding `fzsync_upd_stat` the current average leaves `avg` unchanged and
multiplies `avg_dev` by `1 - alpha`; iterating therefore keeps `avg`
constant, gives `avg_dev = (1-alpha)^n · avg_dev₀`, and (for a
nonnegative deviation) drives `avg_dev` monotonically toward 0. -/
theorem C6_upd_stat_fixed_point (s : Stat) (a : ℚ)
    (h1 : 0 < a) (h2 : a ≤ 1) :
    (∀ n : ℕ,
      ((fun t => fzsync_upd_stat t a t.avg)^[n] s).avg = s.avg ∧
      ((fun t => fzsync_upd_stat t a t.avg)^[n] s).avg_dev =
        (1 - a) ^ n * s.avg_dev) ∧
    (0 ≤ s.avg_dev → ∀ n : ℕ,
      ((fun t => fzsync_upd_stat t a t.avg)^[n + 1] s).avg_dev ≤
        ((fun t => fzsync_upd_stat t a t.avg)^[n] s).avg_dev) := by
  have main : ∀ n : ℕ,
      ((fun t => fzsync_upd_stat t a t.avg)^[n] s).avg = s.avg ∧
      ((fun t => fzsync_upd_stat t a t.avg)^[n] s).avg_dev =
        (1 - a) ^ n * s.avg_dev := by
    intro n
    induction n with
    | zero => simp
    | succ n ih =>
      rw [Function.iterate_succ_apply']
      refine ⟨?_, ?_⟩
      · rw [(upd_stat_fix_step _ a).1, ih.1]
      · rw [(upd_stat_fix_step _ a).2, ih.2]
        ring
  refine ⟨main, fun hdev n => ?_⟩
  rw [(main (n + 1)).2, (main n).2]
  have h3 : (0:ℚ) ≤ 1 - a := by linarith
  have h4 : (1:ℚ) - a ≤ 1 := by linarith
  have h5 : (1 - a) ^ (n + 1) ≤ (1 - a) ^ n :=
    pow_le_pow_of_le_one h3 h4 (Nat.le_succ n)
  exact mul_le_mul_of_nonneg_right h5 hdev

/-- C6 witness: two fixed-point updates of `⟨5, 4, 0⟩` at `alpha = 1/2`
keep the average at 5 and quarter the deviation. -/
theorem C6_upd_stat_fixed_point_witness :
    ((fun t => fzsync_upd_stat t (1/2) t.avg)^[2] ⟨5, 4, 0⟩).avg = 5 ∧
    ((fun t => fzsync_upd_stat t (1/2) t.avg)^[2] ⟨5, 4, 0⟩).avg_dev =
      (1 - 1/2) ^ 2 * 4 := by
  have h := C6_upd_stat_fixed_point ⟨5, 4, 0⟩ (1/2) (by norm_num) (by norm_num)
  exact h.1 2

/-- C7 (confirmed): starting from a reset pair with iteration budget `N`
(`N ≥ 20`) and a clock that never exhausts the time budget,
`fzsync_run_a` reports "continue" on exactly the first `N` calls and
"stop" on call `N + 1`. -/
theorem C7_run_a_iteration_budget (p : Pair) (N : ℕ) (nows : List Timespec)
    (hloop : p.exec_loop = 0) (hN : p.exec_loops = (N : Int)) (h20 : 20 ≤ N)
    (hlen : nows.length = N + 1)
    (hrem : ∀ t ∈ nows, fzsync_timeout_remaining p t ≠ 0) :
    runA_results p nows = List.replicate N true ++ [false] := by
  suffices h : ∀ (ts : List Timespec) (q : Pair) (k : ℕ),
      q.exec_loop = (k : Int) → q.exec_loops = (N : Int) → k ≤ N →
      ts.length = (N - k) + 1 →
      q.exec_time = p.exec_time → q.exec_time_start = p.exec_time_start →
      (∀ t ∈ ts, fzsync_timeout_remaining p t ≠ 0) →
      runA_results q ts = List.replicate (N - k) true ++ [false] by
    have := h nows p 0 (by simpa using hloop) hN (by omega)
      (by simpa using hlen) rfl rfl hrem
    simpa using this
  intro ts
  induction ts with
  | nil =>
    intro q k _ _ _ hlen' _ _ _
    simp at hlen'
  | cons t ts ih =>
    intro q k hk hN' hkN hlen' hte hts hrem'
    have hremq : fzsync_timeout_remaining q t ≠ 0 := by
      rw [timeout_congr hte hts]
      exact hrem' t (by simp)
    obtain ⟨hres, hl, hls, het, hets⟩ := run_a_step q t hremq
    simp only [runA_results]
    by_cases hend : k = N
    · subst hend
      have hcond : q.exec_loop + 1 > q.exec_loops := by
        rw [hk, hN']
        omega
      have hts0 : ts = [] := by
        have h0 : ts.length = 0 := by
          simp only [List.length_cons] at hlen'
          omega
        exact List.length_eq_zero.mp h0
      subst hts0
      rw [hres, if_pos hcond]
      simp [runA_results]
    · have hcond : ¬ (q.exec_loop + 1 > q.exec_loops) := by
        rw [hk, hN']
        have : k < N := lt_of_le_of_ne hkN hend
        omega
      have hrec := ih (fzsync_run_a q t).2 (k + 1)
        (by rw [hl, hk]; push_cast; ring)
        (by rw [hls, hN'])
        (by omega)
        (by simp at hlen' ⊢; omega)
        (by rw [het, hte])
        (by rw [hets, hts])
        (fun t2 ht2 => hrem' t2 (by simp [ht2]))
      rw [hres, if_neg hcond, hrec]
      have hNk : N - k = (N - (k + 1)) + 1 := by omega
      rw [hNk, List.replicate_succ]
      simp

/-- C7 witness: a pair with budget 20 and a clock pinned at the start
gives exactly 20 continues followed by one stop. -/
theorem C7_run_a_iteration_budget_witness :
    runA_results pRun (List.replicate 21 ⟨0, 0⟩) =
      List.replicate 20 true ++ [false] := by
  refine C7_run_a_iteration_budget pRun 20 (List.replicate 21 ⟨0, 0⟩) rfl rfl
    (by decide) (by simp) ?_
  intro t ht
  rw [List.eq_of_mem_replicate ht]
  have h150 : fzsync_timeout_remaining pRun ⟨0, 0⟩ = 150 := by
    norm_num [fzsync_timeout_remaining, ctrunc, pRun, basePair]
  rw [h150]
  decide

/-- C8 (confirmed): `fzsync_pair_cleanup` on a pair with no thread B
returns 0 and leaves every field unchanged, and cleanup is idempotent —
an immediate second call returns 0 and leaves the state of the first
call intact. -/
theorem C8_cleanup_noop_idempotent (p : Pair) (j j2 : Int) :
    (p.thread_b = 0 → fzsync_pair_cleanup p j = (0, p)) ∧
    fzsync_pair_cleanup (fzsync_pair_cleanup p j).2 j2 =
      (0, (fzsync_pair_cleanup p j).2) := by
  constructor
  · intro h
    simp [fzsync_pair_cleanup, h]
  · have h2 : (fzsync_pair_cleanup p j).2.thread_b = 0 := by
      rw [cleanup_fields]
    generalize (fzsync_pair_cleanup p j).2 = q at h2 ⊢
    simp [fzsync_pair_cleanup, h2]

/-- C8 witness: cleanup of the thread-less base pair is a pure no-op. -/
theorem C8_cleanup_noop_idempotent_witness :
    fzsync_pair_cleanup basePair 0 = (0, basePair) :=
  (C8_cleanup_noop_idempotent basePair 0 0).1 (by decide)

/-- C9 (corrected), counterexample: the decay rate `2^(-127)` is nonzero
and inside the documented range `(0, 1]`, yet `fzsync_pair_init` aborts
on it, because the source asserts `avg_alpha >= FLT_MIN` and the
positive denormal floats below `FLT_MIN` fail that assert. -/
theorem C9_init_denormal_cex :
    (0 < pC9.avg_alpha ∧ pC9.avg_alpha ≤ 1 ∧ pC9.avg_alpha ≠ 0) ∧
    fzsync_pair_init pC9 = none := by
  refine ⟨⟨by norm_num [pC9, basePair], by norm_num [pC9, basePair],
    by norm_num [pC9, basePair]⟩, ?_⟩
  norm_num [pC9, basePair, fzsync_pair_init, chkQ, chkI, dflQ, dflI,
    FLT_MIN, FLT_MAX, INT_MAX]

/-- C9 (amended): `fzsync_pair_init` replaces every zero configuration
field by its default (0.25, 1024, 0.1, 150, 3000000) and then asserts
the ranges actually written in the source — decay rate and stability
ratio in `[FLT_MIN, 1]`, sample and iteration counts in `[20, INT_MAX]`,
time budget in `[1, FLT_MAX]`: it succeeds, leaving nonzero in-range
fields unchanged, exactly when every defaulted field is in its asserted
range, and aborts otherwise. -/
theorem C9_init_defaults_and_asserts (p : Pair) :
    (configValid p → fzsync_pair_init p = some (applyDefaults p)) ∧
    (¬ configValid p → fzsync_pair_init p = none) := by
  constructor
  · rintro ⟨c1, c2, c3, c4, c5⟩
    unfold fzsync_pair_init
    rw [chkQ_pos c1]
    simp only [Option.some_bind]
    rw [chkI_pos c2]
    simp only [Option.some_bind]
    rw [chkQ_pos c3]
    simp only [Option.some_bind]
    rw [chkQ_pos c4]
    simp only [Option.some_bind]
    rw [chkI_pos c5]
    simp only [Option.some_bind]
    rfl
  · intro h
    unfold fzsync_pair_init
    by_cases c1 : FLT_MIN ≤ dflQ p.avg_alpha (1/4) ∧ dflQ p.avg_alpha (1/4) ≤ 1
    case neg => rw [chkQ_neg c1]; rfl
    rw [chkQ_pos c1]
    simp only [Option.some_bind]
    by_cases c2 : 20 ≤ dflI p.min_samples 1024 ∧ dflI p.min_samples 1024 ≤ INT_MAX
    case neg => rw [chkI_neg c2]; rfl
    rw [chkI_pos c2]
    simp only [Option.some_bind]
    by_cases c3 : FLT_MIN ≤ dflQ p.max_dev_ratio (1/10) ∧
      dflQ p.max_dev_ratio (1/10) ≤ 1
    case neg => rw [chkQ_neg c3]; rfl
    rw [chkQ_pos c3]
    simp only [Option.some_bind]
    by_cases c4 : (1:ℚ) ≤ dflQ p.exec_time 150 ∧ dflQ p.exec_time 150 ≤ FLT_MAX
    case neg => rw [chkQ_neg c4]; rfl
    rw [chkQ_pos c4]
    simp only [Option.some_bind]
    by_cases c5 : 20 ≤ dflI p.exec_loops 3000000 ∧ dflI p.exec_loops 3000000 ≤ INT_MAX
    case neg => rw [chkI_neg c5]; rfl
    exact absurd ⟨c1, c2, c3, c4, c5⟩ h

/-- C9 witness: the all-zero configuration is defaulted and accepted. -/
theorem C9_init_defaults_and_asserts_witness :
    fzsync_pair_init pZero = some (applyDefaults pZero) :=
  (C9_init_defaults_and_asserts pZero).1
    (by norm_num [configValid, dflQ, dflI, FLT_MIN, FLT_MAX, INT_MAX,
      pZero, basePair])

/-- C10 (corrected), counterexample: `fzsync_pair_reset` does not zero
the five statistics completely — `fzsync_init_stat` only clears `avg`
and `avg_dev`, so a stale `dev_ratio` of 1 survives the reset. -/
theorem C10_reset_dev_ratio_cex :
    (fzsync_pair_reset pC10 none ⟨0, 0⟩).diff_ss.dev_ratio = 1 ∧
    (1 : ℚ) ≠ 0 := by
  refine ⟨?_, by norm_num⟩
  norm_num [pC10, basePair, zeroStat, fzsync_pair_reset,
    fzsync_pair_cleanup, fzsync_init_stat]

/-- C10 (amended): `fzsync_pair_reset` zeroes the `avg` and `avg_dev` of
the five statistics (leaving each `dev_ratio` unchanged), zeroes the
computed delay, the iteration counter, both rendezvous counters and the
exit flag, and sets the sampling counter to `min_samples`, while leaving
`delay_bias` and every configuration field (`avg_alpha`, `min_samples`,
`max_dev_ratio`, `exec_time`, `exec_loops`) unchanged — an accumulated
delay bias persists across reset into the next run. -/
theorem C10_reset_fields (p : Pair) (run_b : Option Int) (now : Timespec) :
    (fzsync_pair_reset p run_b now).diff_ss.avg = 0 ∧
    (fzsync_pair_reset p run_b now).diff_ss.avg_dev = 0 ∧
    (fzsync_pair_reset p run_b now).diff_ss.dev_ratio = p.diff_ss.dev_ratio ∧
    (fzsync_pair_reset p run_b now).diff_sa.avg = 0 ∧
    (fzsync_pair_reset p run_b now).diff_sa.avg_dev = 0 ∧
    (fzsync_pair_reset p run_b now).diff_sa.dev_ratio = p.diff_sa.dev_ratio ∧
    (fzsync_pair_reset p run_b now).diff_sb.avg = 0 ∧
    (fzsync_pair_reset p run_b now).diff_sb.avg_dev = 0 ∧
    (fzsync_pair_reset p run_b now).diff_sb.dev_ratio = p.diff_sb.dev_ratio ∧
    (fzsync_pair_reset p run_b now).diff_ab.avg = 0 ∧
    (fzsync_pair_reset p run_b now).diff_ab.avg_dev = 0 ∧
    (fzsync_pair_reset p run_b now).diff_ab.dev_ratio = p.diff_ab.dev_ratio ∧
    (fzsync_pair_reset p run_b now).spins_avg.avg = 0 ∧
    (fzsync_pair_reset p run_b now).spins_avg.avg_dev = 0 ∧
    (fzsync_pair_reset p run_b now).spins_avg.dev_ratio = p.spins_avg.dev_ratio ∧
    (fzsync_pair_reset p run_b now).delay = 0 ∧
    (fzsync_pair_reset p run_b now).exec_loop = 0 ∧
    (fzsync_pair_reset p run_b now).a_cntr = 0 ∧
    (fzsync_pair_reset p run_b now).b_cntr = 0 ∧
    (fzsync_pair_reset p run_b now).exit = 0 ∧
    (fzsync_pair_reset p run_b now).sampling = p.min_samples ∧
    (fzsync_pair_reset p run_b now).delay_bias = p.delay_bias ∧
    (fzsync_pair_reset p run_b now).avg_alpha = p.avg_alpha ∧
    (fzsync_pair_reset p run_b now).min_samples = p.min_samples ∧
    (fzsync_pair_reset p run_b now).max_dev_ratio = p.max_dev_ratio ∧
    (fzsync_pair_reset p run_b now).exec_time = p.exec_time ∧
    (fzsync_pair_reset p run_b now).exec_loops = p.exec_loops := by
  have hcl := cleanup_fields p 0
  cases run_b <;> simp [fzsync_pair_reset, hcl, fzsync_init_stat]

end FuzzySync
